import Mathlib

/-!
Verification of the watercontroller device I/O protocol layer:
the SEN0676 Modbus-RTU register client (src/sen0676.rs) and the
LS027B7DH01 memory-display protocol engine (src/ls027b7dh01.rs),
shallowly embedded over Nat with explicit byte arithmetic.
-/

namespace WaterController

/-! ## CRC16 (src/sen0676.rs, fn crc16)

One inner-loop round of the Modbus CRC: conditional shift/XOR with the
reflected polynomial 0xA001. -/

def crc16_round (crc : Nat) : Nat :=
  if crc &&& 0x0001 ≠ 0 then (crc >>> 1) ^^^ 0xA001 else crc >>> 1

/-- Processing of one input byte: XOR into the accumulator, then 8 rounds. -/
def crc16_byte (crc b : Nat) : Nat :=
  crc16_round^[8] (crc ^^^ b)

/-- `crc16` from src/sen0676.rs: seed 0xFFFF, fold over the data bytes. -/
def crc16 (data : List Nat) : Nat :=
  data.foldl crc16_byte 0xFFFF

/-! ## Display driver state (src/ls027b7dh01.rs)

The framebuffer (12000 bytes = 240 lines x 50 bytes) and the dirty-line
bitmap (30 bytes) are modelled as functions from byte index to byte value;
the vcom polarity bit is a Bool.  Bus primitives (chip-select transitions
and SPI writes) are fallible: a transaction takes an oracle `ok : Nat → Bool`
giving the outcome of its k-th bus-primitive call, and returns the new
driver state, the list of SPI write payloads issued, and a success flag
(Rust's `?` aborts the transaction at the first failed call, keeping
whatever state mutations already happened). -/

structure Ls027b7dh01 where
  framebuffer : Nat → Nat
  dirty_lines : Nat → Nat
  vcom : Bool

/-- `Ls027b7dh01::new`: white framebuffer, no dirty lines, vcom false. -/
def Ls027b7dh01.new : Ls027b7dh01 :=
  { framebuffer := fun _ => 0xFF, dirty_lines := fun _ => 0, vcom := false }

/-- `mark_dirty`: set bit `line % 8` of dirty byte `line / 8`. -/
def mark_dirty (d : Nat → Nat) (line : Nat) : Nat → Nat :=
  fun i => if i = line / 8 then d i ||| (1 <<< (line % 8)) else d i

/-- `is_dirty`: test bit `line % 8` of dirty byte `line / 8`. -/
def is_dirty (s : Ls027b7dh01) (line : Nat) : Bool :=
  s.dirty_lines (line / 8) &&& (1 <<< (line % 8)) != 0

/-- `flush`'s dirty check: `self.dirty_lines.iter().any(|&b| b != 0)`
over the 30-byte bitmap. -/
def has_dirty (s : Ls027b7dh01) : Bool :=
  (List.range 30).any (fun i => s.dirty_lines i != 0)

/-- `clear_display`: whiten the framebuffer and clear the dirty bitmap
(unconditionally, before any bus traffic), then cs high (call 0),
SPI write `[0x04|vcom<<1, 0x00]` (call 1), cs low (call 2), and only
then flip vcom. -/
def clear_display (ok : Nat → Bool) (s : Ls027b7dh01) :
    Ls027b7dh01 × List (List Nat) × Bool :=
  let s1 : Ls027b7dh01 :=
    { s with framebuffer := fun _ => 0xFF, dirty_lines := fun _ => 0 }
  if !ok 0 then (s1, [], false)
  else
    let mode := 0x04 ||| (if s1.vcom then 0x02 else 0)
    if !ok 1 then (s1, [[mode, 0x00]], false)
    else if !ok 2 then (s1, [[mode, 0x00]], false)
    else ({ s1 with vcom := !s1.vcom }, [[mode, 0x00]], true)

/-- `toggle_vcom`: cs high (call 0), SPI write `[vcom<<1, 0x00]` (call 1),
cs low (call 2), then flip vcom. -/
def toggle_vcom (ok : Nat → Bool) (s : Ls027b7dh01) :
    Ls027b7dh01 × List (List Nat) × Bool :=
  if !ok 0 then (s, [], false)
  else
    let mode := if s.vcom then 0x02 else 0
    if !ok 1 then (s, [[mode, 0x00]], false)
    else if !ok 2 then (s, [[mode, 0x00]], false)
    else ({ s with vcom := !s.vcom }, [[mode, 0x00]], true)

/-- The 52-byte packet sent for one dirty line: 1-indexed line address,
50 framebuffer bytes, trailing dummy 0. -/
def line_buf (s : Ls027b7dh01) (line : Nat) : List Nat :=
  ((line + 1) % 256) :: ((List.range 50).map (fun i => s.framebuffer (line * 50 + i)) ++ [0])

/-- The per-line loop of `flush`: walk the given lines, skipping clean ones,
issuing one SPI write (one oracle call) per dirty line; abort on the first
failure.  Returns the issued packets, the next free oracle index, and a
success flag. -/
def send_lines (ok : Nat → Bool) (s : Ls027b7dh01) :
    List Nat → Nat → List (List Nat) × Nat × Bool
  | [], k => ([], k, true)
  | line :: rest, k =>
    if is_dirty s line then
      if ok k then
        let r := send_lines ok s rest (k + 1)
        (line_buf s line :: r.1, r.2.1, r.2.2)
      else ([line_buf s line], k + 1, false)
    else send_lines ok s rest k

/-- `flush`: if nothing is dirty, degrade to `toggle_vcom`.  Otherwise:
cs high (call 0), mode byte `[0x01|vcom<<1]` (call 1), the per-line loop
(calls 2..), the final dummy `[0x00]`, cs low, and only on full success
flip vcom and clear the dirty bitmap. -/
def flush (ok : Nat → Bool) (s : Ls027b7dh01) :
    Ls027b7dh01 × List (List Nat) × Bool :=
  if !has_dirty s then toggle_vcom ok s
  else if !ok 0 then (s, [], false)
  else
    let mode := 0x01 ||| (if s.vcom then 0x02 else 0)
    if !ok 1 then (s, [[mode]], false)
    else
      let r := send_lines ok s (List.range 240) 2
      if !r.2.2 then (s, [mode] :: r.1, false)
      else if !ok r.2.1 then (s, ([mode] :: r.1) ++ [[0]], false)
      else if !ok (r.2.1 + 1) then (s, ([mode] :: r.1) ++ [[0]], false)
      else ({ s with vcom := !s.vcom, dirty_lines := fun _ => 0 },
            ([mode] :: r.1) ++ [[0]], true)

/-- `set_pixel`: bounds-checked no-op outside 400x240; otherwise OR in or
AND out the addressed bit of byte `y*50 + x/8`, and mark line `y` dirty
exactly when the byte's value changed. -/
def set_pixel (s : Ls027b7dh01) (x y : Nat) (color : Bool) : Ls027b7dh01 :=
  if 400 ≤ x ∨ 240 ≤ y then s
  else
    let byte_idx := y * 50 + x / 8
    let bit_idx := x % 8
    let old_byte := s.framebuffer byte_idx
    let new_byte :=
      if color then old_byte ||| (1 <<< bit_idx)
      else old_byte &&& (0xFF ^^^ (1 <<< bit_idx))
    let fb := fun i => if i = byte_idx then new_byte else s.framebuffer i
    if new_byte ≠ old_byte then
      { s with framebuffer := fb, dirty_lines := mark_dirty s.dirty_lines y }
    else { s with framebuffer := fb }

/-- The three display transaction kinds of the engine. -/
inductive DispOp
  | clear
  | toggle
  | flushOp

/-- Dispatch one transaction. -/
def run_op (ok : Nat → Bool) (op : DispOp) (s : Ls027b7dh01) :
    Ls027b7dh01 × List (List Nat) × Bool :=
  match op with
  | .clear => clear_display ok s
  | .toggle => toggle_vcom ok s
  | .flushOp => flush ok s

/-- Run a sequence of transactions, each with its own bus oracle; `none`
as soon as one fails. -/
def run_trans (s : Ls027b7dh01) :
    List (DispOp × (Nat → Bool)) → Option Ls027b7dh01
  | [] => some s
  | p :: rest =>
    let r := run_op p.2 p.1 s
    if r.2.2 then run_trans r.1 rest else none

/-! ## SEN0676 Modbus client (src/sen0676.rs)

The UART transport is modelled by a write-success flag and a read script:
the k-th call to `uart.read` either fails (`err`) or delivers a list of
bytes (`ok bs`, with `bs = []` the Ok(0) timeout case); a delivery is
capped at the free space of the destination buffer, as the transport can
never return more bytes than the slice it was handed. -/

inductive ReadResult
  | ok (bytes : List Nat)
  | err

structure Uart where
  wok : Bool
  script : Nat → ReadResult

/-- The sensor driver errors of src/sen0676.rs. -/
inductive SenError
  | Io
  | CrcMismatch
  | InvalidLength
  | AddressMismatch
  | FunctionMismatch
  | ModbusException (code : Nat)
  | Timeout
  | InvalidBaudRate
  | InvalidAddress
deriving DecidableEq

/-- `Sen0676::read_exact`: keep calling `uart.read` on the unfilled tail of
the buffer until `target` bytes have accumulated; Ok(0) is `Timeout`, a
transport error is `Io`.  Returns the bytes read and the next read index. -/
def read_exact (script : Nat → ReadResult) (k : Nat) (acc : List Nat)
    (target : Nat) : Except SenError (List Nat × Nat) :=
  if target ≤ acc.length then .ok (acc, k)
  else
    match script k with
    | .err => .error .Io
    | .ok bs =>
      if bs.length = 0 then .error .Timeout
      else read_exact script (k + 1) (acc ++ bs.take (target - acc.length)) target
termination_by target - acc.length
decreasing_by
  simp only [List.length_append, List.length_take]
  cases bs with
  | nil => simp at *
  | cons b t => simp; omega

/-- The 8-byte read request frame of `Sen0676::read_register`:
address, function 0x03, register big-endian, count 1, CRC little-endian. -/
def read_request (address register : Nat) : List Nat :=
  let r := [address, 0x03, (register >>> 8) % 256, register % 256, 0x00, 0x01]
  let crc := crc16 r
  r ++ [crc % 256, crc >>> 8]

/-- `Sen0676::read_register`: write the request frame, read exactly 7
response bytes, then validate CRC, exception bit, address echo, function
echo and byte count in that order; on success return bytes 3 and 4
big-endian.  The second component is the list of frames handed to
`uart.write`. -/
def read_register (address register : Nat) (u : Uart) :
    Except SenError Nat × List (List Nat) :=
  let req := read_request address register
  let res : Except SenError Nat :=
    if !u.wok then .error .Io
    else
      match read_exact u.script 0 [] 7 with
      | .error e => .error e
      | .ok (resp, _) =>
        let received_crc := (resp.getD 6 0) <<< 8 ||| resp.getD 5 0
        let calculated_crc := crc16 (resp.take 5)
        if received_crc ≠ calculated_crc then .error .CrcMismatch
        else if resp.getD 1 0 &&& 0x80 ≠ 0 then .error (.ModbusException (resp.getD 2 0))
        else if resp.getD 0 0 ≠ address then .error .AddressMismatch
        else if resp.getD 1 0 ≠ 0x03 then .error .FunctionMismatch
        else if resp.getD 2 0 ≠ 2 then .error .InvalidLength
        else .ok ((resp.getD 3 0) <<< 8 ||| resp.getD 4 0)
  (res, [req])

/-- The 8-byte write request frame of `Sen0676::write_register`:
address, function 0x06, register big-endian, value big-endian, CRC
little-endian. -/
def write_request (address register value : Nat) : List Nat :=
  let r := [address, 0x06, (register >>> 8) % 256, register % 256,
            (value >>> 8) % 256, value % 256]
  let crc := crc16 r
  r ++ [crc % 256, crc >>> 8]

/-- `Sen0676::write_register`: write the request frame, read exactly 8
echoed bytes, then validate CRC, exception bit, address echo and function
echo in that order; the echoed register/value bytes are not inspected. -/
def write_register (address register value : Nat) (u : Uart) :
    Except SenError Unit × List (List Nat) :=
  let req := write_request address register value
  let res : Except SenError Unit :=
    if !u.wok then .error .Io
    else
      match read_exact u.script 0 [] 8 with
      | .error e => .error e
      | .ok (resp, _) =>
        let received_crc := (resp.getD 7 0) <<< 8 ||| resp.getD 6 0
        let calculated_crc := crc16 (resp.take 6)
        if received_crc ≠ calculated_crc then .error .CrcMismatch
        else if resp.getD 1 0 &&& 0x80 ≠ 0 then .error (.ModbusException (resp.getD 2 0))
        else if resp.getD 0 0 ≠ address then .error .AddressMismatch
        else if resp.getD 1 0 ≠ 0x06 then .error .FunctionMismatch
        else .ok ()
  (res, [req])

/-- The facade state: the stored Modbus device address. -/
structure Sen0676 where
  address : Nat

/-- `Sen0676::set_device_address`: reject 0x00 and addresses above 0xFD
with `InvalidAddress` before any transport traffic; otherwise write
register 0x03F4 and, only on success, store the new address.  Returns the
result, the new facade state, and the frames handed to `uart.write`. -/
def set_device_address (s : Sen0676) (addr : Nat) (u : Uart) :
    Except SenError Unit × Sen0676 × List (List Nat) :=
  if addr = 0 ∨ 0xFD < addr then (.error .InvalidAddress, s, [])
  else
    let r := write_register s.address 0x03F4 addr u
    match r.1 with
    | .error e => (.error e, s, r.2)
    | .ok _ => (.ok (), { address := addr }, r.2)

/-- The baud-rate encoding match of `Sen0676::set_baud_rate`. -/
def baud_code (baud : Nat) : Option Nat :=
  match baud with
  | 4800 => some 48
  | 9600 => some 96
  | 14400 => some 144
  | 19200 => some 192
  | 38400 => some 384
  | 56000 => some 560
  | 57600 => some 576
  | 115200 => some 1152
  | 129000 => some 1290
  | _ => none

/-- `Sen0676::set_baud_rate`: reject unsupported rates with
`InvalidBaudRate` before any transport traffic; otherwise write the
encoded value to register 0x03F6. -/
def set_baud_rate (s : Sen0676) (baud : Nat) (u : Uart) :
    Except SenError Unit × List (List Nat) :=
  match baud_code baud with
  | none => (.error .InvalidBaudRate, [])
  | some v => write_register s.address 0x03F6 v u

/-- A transport whose every read call delivers the same byte list and
whose writes succeed: the standard single-response test harness. -/
def scriptOf (resp : List Nat) : Nat → ReadResult :=
  fun _ => .ok resp

def uartOf (resp : List Nat) : Uart :=
  { wok := true, script := scriptOf resp }

/-- Left inverse of one CRC round on 16-bit states (proof device for CRC
single-byte-change detection). -/
def crc16_round_inv (c : Nat) : Nat :=
  if c.testBit 15 then 2 * (c ^^^ 0xA001) + 1 else 2 * c

/-! ## Theorems -/

set_option maxRecDepth 8000 in
/-- Claim C3: `crc16` is the Modbus CRC (seed 0xFFFF, reflected polynomial
0xA001, per-byte XOR into the accumulator followed by 8 conditional
shift/XOR rounds), and on the two datasheet vectors it yields 0xCAD5 and
0x7599 respectively. -/
theorem crc16_spec_vectors :
    crc16 [0x01, 0x03, 0x00, 0x01, 0x00, 0x01] = 0xCAD5
    ∧ crc16 [0x01, 0x06, 0x00, 0x05, 0x03, 0xE8] = 0x7599 := by
  constructor <;> decide

theorem toggle_vcom_state_eq (ok : Nat → Bool) (s : Ls027b7dh01) :
    (toggle_vcom ok s).1 =
      if (toggle_vcom ok s).2.2 then { s with vcom := !s.vcom } else s := by
  unfold toggle_vcom
  rcases h0 : ok 0 <;> rcases h1 : ok 1 <;> rcases h2 : ok 2 <;> simp [h0, h1, h2]

theorem toggle_vcom_trace_eq (ok : Nat → Bool) (s : Ls027b7dh01)
    (h : (toggle_vcom ok s).2.2 = true) :
    (toggle_vcom ok s).2.1 = [[if s.vcom then 0x02 else 0, 0x00]] := by
  unfold toggle_vcom at *
  rcases h0 : ok 0 <;> rcases h1 : ok 1 <;> rcases h2 : ok 2 <;>
    simp [h0, h1, h2] at h ⊢

theorem clear_display_state_eq (ok : Nat → Bool) (s : Ls027b7dh01) :
    (clear_display ok s).1 =
      { framebuffer := fun _ => 0xFF, dirty_lines := fun _ => 0,
        vcom := if (clear_display ok s).2.2 then !s.vcom else s.vcom } := by
  unfold clear_display
  rcases h0 : ok 0 <;> rcases h1 : ok 1 <;> rcases h2 : ok 2 <;> simp [h0, h1, h2]

theorem flush_no_dirty_eq (ok : Nat → Bool) (s : Ls027b7dh01)
    (h : has_dirty s = false) : flush ok s = toggle_vcom ok s := by
  unfold flush
  simp [h]

theorem flush_state_eq (ok : Nat → Bool) (s : Ls027b7dh01)
    (hd : has_dirty s = true) :
    (flush ok s).1 =
      if (flush ok s).2.2 then
        { s with vcom := !s.vcom, dirty_lines := fun _ => 0 }
      else s := by
  unfold flush
  rcases h0 : ok 0 <;> rcases h1 : ok 1 <;>
    rcases hr : (send_lines ok s (List.range 240) 2).2.2 <;>
      rcases h2 : ok (send_lines ok s (List.range 240) 2).2.1 <;>
        rcases h3 : ok ((send_lines ok s (List.range 240) 2).2.1 + 1) <;>
          simp [hd, h0, h1, hr, h2, h3]

theorem has_dirty_false_all_zero (s : Ls027b7dh01) (h : has_dirty s = false) :
    ∀ i, i < 30 → s.dirty_lines i = 0 := by
  intro i hi
  unfold has_dirty at h
  rw [List.any_eq_false] at h
  have := h i (List.mem_range.mpr hi)
  simpa using this

/-- Claim C1 is false as stated at this input: starting from a fresh engine
with line 0 marked dirty, a `clear_display` whose SPI write fails (oracle
allows only call 0, the chip-select assert) reports failure, yet the
dirty-line bitmap has been cleared — a partial state commit on failure. -/
theorem clear_display_failure_commits_state :
    is_dirty (set_pixel Ls027b7dh01.new 0 0 false) 0 = true
    ∧ (clear_display (fun k => k == 0) (set_pixel Ls027b7dh01.new 0 0 false)).2.2 = false
    ∧ is_dirty (clear_display (fun k => k == 0) (set_pixel Ls027b7dh01.new 0 0 false)).1 0
        = false := by
  refine ⟨by decide, by decide, by decide⟩

/-- Claim C1 (amended): for `toggle_vcom` and `flush`, a failed bus
transaction propagates the error and leaves the driver state (dirty
bitmap, polarity, framebuffer) entirely unchanged, so it can be retried
without skewing the alternation; for `clear_display` the polarity bit is
likewise unflipped on failure, but the framebuffer whitening and the
dirty-bitmap clearing are committed unconditionally before the bus write
and therefore persist even when the transaction fails. -/
theorem display_failure_semantics (ok : Nat → Bool) (s : Ls027b7dh01) :
    ((toggle_vcom ok s).2.2 = false → (toggle_vcom ok s).1 = s)
    ∧ ((flush ok s).2.2 = false → (flush ok s).1 = s)
    ∧ ((clear_display ok s).2.2 = false →
        (clear_display ok s).1.vcom = s.vcom
        ∧ (∀ i, (clear_display ok s).1.dirty_lines i = 0)
        ∧ (∀ i, (clear_display ok s).1.framebuffer i = 0xFF)) := by
  refine ⟨?_, ?_, ?_⟩
  · intro h
    rw [toggle_vcom_state_eq, h]
    simp
  · intro h
    rcases hd : has_dirty s with _ | _
    · rw [flush_no_dirty_eq ok s hd] at h ⊢
      rw [toggle_vcom_state_eq, h]
      simp
    · rw [flush_state_eq ok s hd, h]
      simp
  · intro h
    rw [clear_display_state_eq, h]
    simp

/-- A witness for the amended C1: a toggle whose SPI write fails (only bus
call 0 succeeds) fails and leaves the fresh state unchanged. -/
theorem display_failure_semantics_witness :
    (toggle_vcom (fun k => k == 0) Ls027b7dh01.new).1 = Ls027b7dh01.new := by
  exact (display_failure_semantics (fun k => k == 0) Ls027b7dh01.new).1 (by decide)

theorem run_op_success_vcom (ok : Nat → Bool) (op : DispOp) (s : Ls027b7dh01)
    (h : (run_op ok op s).2.2 = true) : (run_op ok op s).1.vcom = !s.vcom := by
  cases op with
  | clear =>
    have := clear_display_state_eq ok s
    unfold run_op at *
    rw [this, h]
    simp
  | toggle =>
    have := toggle_vcom_state_eq ok s
    unfold run_op at *
    rw [this, h]
    simp
  | flushOp =>
    unfold run_op at *
    rcases hd : has_dirty s with _ | _
    · rw [flush_no_dirty_eq ok s hd] at h ⊢
      rw [toggle_vcom_state_eq, h]
      simp
    · rw [flush_state_eq ok s hd, h]
      simp

theorem run_trans_vcom (l : List (DispOp × (Nat → Bool))) (s s' : Ls027b7dh01)
    (h : run_trans s l = some s') :
    s'.vcom = (s.vcom != decide (l.length % 2 = 1)) := by
  induction l generalizing s with
  | nil =>
    unfold run_trans at h
    cases h
    simp
  | cons p rest ih =>
    unfold run_trans at h
    simp only at h
    rcases hr : (run_op p.2 p.1 s).2.2 with _ | _
    · rw [hr] at h
      simp at h
    · rw [hr] at h
      simp only [if_true] at h
      have hv := run_op_success_vcom p.2 p.1 s hr
      have hih := ih (run_op p.2 p.1 s).1 h
      have hlen : (p :: rest).length % 2 = (rest.length + 1) % 2 := by simp
      rcases Nat.mod_two_eq_zero_or_one rest.length with h1 | h1
      · have h2 : (rest.length + 1) % 2 = 1 := by omega
        rw [hih, hv, hlen, h1, h2]
        cases s.vcom <;> simp
      · have h2 : (rest.length + 1) % 2 = 0 := by omega
        rw [hih, hv, hlen, h1, h2]
        cases s.vcom <;> simp

/-- Claim C4: from a fresh display engine (polarity false), after any
sequence of successful transactions (clear, toggle, or flush), the
polarity bit equals the parity of the number of transactions: each
successful transaction inverts it exactly once. -/
theorem vcom_alternation (l : List (DispOp × (Nat → Bool))) (s' : Ls027b7dh01)
    (h : run_trans Ls027b7dh01.new l = some s') :
    s'.vcom = decide (l.length % 2 = 1) := by
  have := run_trans_vcom l Ls027b7dh01.new s' h
  simpa [Ls027b7dh01.new] using this

/-- A witness for C4: one successful toggle from fresh state ends with
polarity true = (1 mod 2). -/
theorem vcom_alternation_witness :
    run_trans Ls027b7dh01.new [(DispOp.toggle, fun _ => true)]
      = some ⟨fun _ => 0xFF, fun _ => 0, true⟩
    ∧ (⟨fun _ => 0xFF, fun _ => 0, true⟩ : Ls027b7dh01).vcom
        = decide ((1 : Nat) % 2 = 1) :=
  ⟨rfl, vcom_alternation [(DispOp.toggle, fun _ => true)] _ rfl⟩

/-- Claim C5: a flush with no dirty line degrades to a toggle-only
transaction — on success it flips the polarity bit exactly once and the
only SPI traffic is the 2-byte toggle command (no line data); and any
successful flush leaves every bit of the dirty bitmap cleared. -/
theorem flush_degrade_and_clear (ok : Nat → Bool) (s : Ls027b7dh01) :
    (has_dirty s = false →
      flush ok s = toggle_vcom ok s
      ∧ ((flush ok s).2.2 = true →
          (flush ok s).1.vcom = !s.vcom
          ∧ (flush ok s).2.1 = [[if s.vcom then 0x02 else 0, 0x00]]))
    ∧ ((flush ok s).2.2 = true →
        ∀ i, i < 30 → (flush ok s).1.dirty_lines i = 0) := by
  constructor
  · intro hd
    refine ⟨flush_no_dirty_eq ok s hd, ?_⟩
    intro hs
    rw [flush_no_dirty_eq ok s hd] at hs ⊢
    refine ⟨?_, toggle_vcom_trace_eq ok s hs⟩
    rw [toggle_vcom_state_eq, hs]
    simp
  · intro hs i hi
    rcases hd : has_dirty s with _ | _
    · rw [flush_no_dirty_eq ok s hd] at hs ⊢
      rw [toggle_vcom_state_eq, hs]
      simp only [if_true]
      exact has_dirty_false_all_zero s hd i hi
    · rw [flush_state_eq ok s hd, hs]
      simp

/-- A witness for C5: flushing a fresh engine (nothing dirty) over an
always-succeeding bus degrades to a toggle, flips polarity, sends only
the toggle command, and leaves the dirty bitmap empty. -/
theorem flush_degrade_and_clear_witness :
    flush (fun _ => true) Ls027b7dh01.new = toggle_vcom (fun _ => true) Ls027b7dh01.new
    ∧ (flush (fun _ => true) Ls027b7dh01.new).1.vcom = true
    ∧ (flush (fun _ => true) Ls027b7dh01.new).2.1 = [[0, 0]]
    ∧ (flush (fun _ => true) Ls027b7dh01.new).1.dirty_lines 0 = 0 := by
  have h := flush_degrade_and_clear (fun _ => true) Ls027b7dh01.new
  have h1 := h.1 (by decide)
  have h2 := h1.2 (by decide)
  exact ⟨h1.1, by simpa using h2.1, by simpa using h2.2,
    h.2 (by decide) 0 (by decide)⟩

theorem and_one_shift_bne (d k : Nat) :
    (d &&& (1 <<< k) != 0) = d.testBit k := by
  rw [Nat.one_shiftLeft]
  rcases h : d.testBit k with _ | _
  · have hz : d &&& 2 ^ k = 0 := by
      apply Nat.eq_of_testBit_eq
      intro i
      simp only [Nat.testBit_and, Nat.zero_testBit, Nat.testBit_two_pow]
      rcases eq_or_ne k i with rfl | hne
      · simp [h]
      · simp [hne]
    simp [hz]
  · have ht : (d &&& 2 ^ k).testBit k = true := by
      simp [Nat.testBit_and, h, Nat.testBit_two_pow]
    have hne : d &&& 2 ^ k ≠ 0 := by
      intro h0
      rw [h0] at ht
      simp at ht
    simp [hne]

theorem is_dirty_eq_testBit (s : Ls027b7dh01) (l : Nat) :
    is_dirty s l = (s.dirty_lines (l / 8)).testBit (l % 8) :=
  and_one_shift_bne _ _

theorem or_one_shift_testBit_self (d k : Nat) :
    (d ||| (1 <<< k)).testBit k = true := by
  rw [Nat.one_shiftLeft]
  simp [Nat.testBit_or, Nat.testBit_two_pow]

theorem or_one_shift_testBit_ne (d k j : Nat) (h : j ≠ k) :
    (d ||| (1 <<< k)).testBit j = d.testBit j := by
  rw [Nat.one_shiftLeft]
  simp [Nat.testBit_or, Nat.testBit_two_pow, (Ne.symm h)]

theorem testBit_255 (j : Nat) : (255 : Nat).testBit j = decide (j < 8) := by
  rw [show (255 : Nat) = 2 ^ 8 - 1 from by norm_num]
  exact Nat.testBit_two_pow_sub_one 8 j

theorem and_mask_testBit_self (d k : Nat) (hk : k < 8) :
    (d &&& (255 ^^^ (1 <<< k))).testBit k = false := by
  rw [Nat.one_shiftLeft]
  simp [Nat.testBit_and, Nat.testBit_xor, testBit_255, Nat.testBit_two_pow, hk]

theorem and_mask_testBit_ne (d k j : Nat) (hj8 : j < 8) (h : j ≠ k) :
    (d &&& (255 ^^^ (1 <<< k))).testBit j = d.testBit j := by
  rw [Nat.one_shiftLeft]
  simp [Nat.testBit_and, Nat.testBit_xor, testBit_255, Nat.testBit_two_pow, hj8,
    (Ne.symm h)]

theorem or_one_shift_eq_self (d k : Nat) (h : d.testBit k = true) :
    d ||| (1 <<< k) = d := by
  apply Nat.eq_of_testBit_eq
  intro i
  rcases eq_or_ne i k with rfl | hne
  · rw [or_one_shift_testBit_self, h]
  · rw [or_one_shift_testBit_ne d k i hne]

theorem or_one_shift_ne_self (d k : Nat) (h : d.testBit k = false) :
    d ||| (1 <<< k) ≠ d := by
  intro he
  have := or_one_shift_testBit_self d k
  rw [he, h] at this
  simp at this

theorem and_mask_eq_self (d k : Nat) (hk : k < 8) (hd : d < 256)
    (h : d.testBit k = false) : d &&& (255 ^^^ (1 <<< k)) = d := by
  apply Nat.eq_of_testBit_eq
  intro i
  rcases Nat.lt_or_ge i 8 with hi8 | hi8
  · rcases eq_or_ne i k with rfl | hne
    · rw [and_mask_testBit_self d i hk, h]
    · rw [and_mask_testBit_ne d k i hi8 hne]
  · have h2 : (256 : Nat) ≤ 2 ^ i := by
      calc (256 : Nat) = 2 ^ 8 := by norm_num
      _ ≤ 2 ^ i := Nat.pow_le_pow_right (by norm_num) hi8
    have hdi : d.testBit i = false := Nat.testBit_lt_two_pow (lt_of_lt_of_le hd h2)
    simp [Nat.testBit_and, hdi]

theorem and_mask_ne_self (d k : Nat) (hk : k < 8) (h : d.testBit k = true) :
    d &&& (255 ^^^ (1 <<< k)) ≠ d := by
  intro he
  have := and_mask_testBit_self d k hk
  rw [he, h] at this
  simp at this

/-- Claim C6: the fresh framebuffer has an empty dirty bitmap; `set_pixel`
is a no-op outside the 400x240 grid; in bounds (for a byte-valued
framebuffer cell) it sets or clears exactly the addressed bit of byte
`y*50 + x/8`, touches no other byte, is the identity when the pixel
already has the requested color, and marks exactly line `y` dirty when
the byte actually changed. -/
theorem set_pixel_spec (s : Ls027b7dh01) (x y : Nat) (c : Bool) :
    (∀ i, Ls027b7dh01.new.dirty_lines i = 0)
    ∧ (400 ≤ x ∨ 240 ≤ y → set_pixel s x y c = s)
    ∧ (x < 400 → y < 240 → s.framebuffer (y * 50 + x / 8) < 256 →
        ((set_pixel s x y c).framebuffer (y * 50 + x / 8)).testBit (x % 8) = c
        ∧ (∀ j, j < 8 → j ≠ x % 8 →
            ((set_pixel s x y c).framebuffer (y * 50 + x / 8)).testBit j
              = (s.framebuffer (y * 50 + x / 8)).testBit j)
        ∧ (∀ i, i ≠ y * 50 + x / 8 →
            (set_pixel s x y c).framebuffer i = s.framebuffer i)
        ∧ ((s.framebuffer (y * 50 + x / 8)).testBit (x % 8) = c →
            set_pixel s x y c = s)
        ∧ ((s.framebuffer (y * 50 + x / 8)).testBit (x % 8) ≠ c →
            is_dirty (set_pixel s x y c) y = true
            ∧ ∀ l, l < 240 → l ≠ y →
                is_dirty (set_pixel s x y c) l = is_dirty s l)) := by
  refine ⟨fun i => rfl, fun h => by simp [set_pixel, h], ?_⟩
  intro hx hy hb
  have hcond : ¬(400 ≤ x ∨ 240 ≤ y) := by omega
  have hk : x % 8 < 8 := Nat.mod_lt x (by norm_num)
  have hfbid : (fun i => if i = y * 50 + x / 8
      then s.framebuffer (y * 50 + x / 8) else s.framebuffer i)
      = s.framebuffer := by
    funext i
    rcases eq_or_ne i (y * 50 + x / 8) with rfl | hne
    · simp
    · simp [hne]
  rcases c with _ | _
  · -- color = false: clear the bit
    rcases hc : (s.framebuffer (y * 50 + x / 8)).testBit (x % 8) with _ | _
    · -- bit already clear: byte unchanged
      have hnb : s.framebuffer (y * 50 + x / 8) &&& (255 ^^^ (1 <<< (x % 8)))
          = s.framebuffer (y * 50 + x / 8) := and_mask_eq_self _ _ hk hb hc
      have hsp : set_pixel s x y false = s := by
        unfold set_pixel
        rw [if_neg hcond]
        simp only [Bool.false_eq_true, if_false]
        rw [hnb]
        simp only [ne_eq, not_true_eq_false, Bool.false_eq_true, if_false]
        rw [hfbid]
      refine ⟨?_, ?_, ?_, fun _ => hsp, ?_⟩
      · rw [hsp, hc]
      · intro j _ _
        rw [hsp]
      · intro i _
        rw [hsp]
      · intro hcc
        exact absurd rfl hcc
    · -- bit set: byte changes, line marked dirty
      have hnb : s.framebuffer (y * 50 + x / 8) &&& (255 ^^^ (1 <<< (x % 8)))
          ≠ s.framebuffer (y * 50 + x / 8) := and_mask_ne_self _ _ hk hc
      have hsp : set_pixel s x y false =
          { s with
            framebuffer := fun i => if i = y * 50 + x / 8
              then s.framebuffer (y * 50 + x / 8) &&& (255 ^^^ (1 <<< (x % 8)))
              else s.framebuffer i,
            dirty_lines := mark_dirty s.dirty_lines y } := by
        unfold set_pixel
        rw [if_neg hcond]
        simp only [Bool.false_eq_true, if_false]
        rw [if_pos hnb]
      rw [hsp]
      refine ⟨?_, ?_, ?_, ?_, ?_⟩
      · simp only [if_pos rfl]
        exact and_mask_testBit_self _ _ hk
      · intro j hj8 hjne
        simp only [if_pos rfl]
        exact and_mask_testBit_ne _ _ _ hj8 hjne
      · intro i hne
        simp [hne]
      · intro hcc
        exact absurd hcc (by decide)
      · intro _
        constructor
        · rw [is_dirty_eq_testBit]
          simp only [mark_dirty, if_pos rfl]
          exact or_one_shift_testBit_self _ _
        · intro l _ hlne
          rw [is_dirty_eq_testBit, is_dirty_eq_testBit]
          simp only [mark_dirty]
          rcases eq_or_ne (l / 8) (y / 8) with hdiv | hdiv
          · rw [if_pos hdiv, hdiv]
            have hmod : l % 8 ≠ y % 8 := by
              intro hm
              apply hlne
              omega
            exact or_one_shift_testBit_ne _ _ _ hmod
          · rw [if_neg hdiv]
  · -- color = true: set the bit
    rcases hc : (s.framebuffer (y * 50 + x / 8)).testBit (x % 8) with _ | _
    · -- bit clear: byte changes, line marked dirty
      have hnb : s.framebuffer (y * 50 + x / 8) ||| (1 <<< (x % 8))
          ≠ s.framebuffer (y * 50 + x / 8) := or_one_shift_ne_self _ _ hc
      have hsp : set_pixel s x y true =
          { s with
            framebuffer := fun i => if i = y * 50 + x / 8
              then s.framebuffer (y * 50 + x / 8) ||| (1 <<< (x % 8))
              else s.framebuffer i,
            dirty_lines := mark_dirty s.dirty_lines y } := by
        unfold set_pixel
        rw [if_neg hcond]
        simp only [if_true]
        rw [if_pos hnb]
      rw [hsp]
      refine ⟨?_, ?_, ?_, ?_, ?_⟩
      · simp only [if_pos rfl]
        exact or_one_shift_testBit_self _ _
      · intro j _ hjne
        simp only [if_pos rfl]
        exact or_one_shift_testBit_ne _ _ _ hjne
      · intro i hne
        simp [hne]
      · intro hcc
        exact absurd hcc (by decide)
      · intro _
        constructor
        · rw [is_dirty_eq_testBit]
          simp only [mark_dirty, if_pos rfl]
          exact or_one_shift_testBit_self _ _
        · intro l _ hlne
          rw [is_dirty_eq_testBit, is_dirty_eq_testBit]
          simp only [mark_dirty]
          rcases eq_or_ne (l / 8) (y / 8) with hdiv | hdiv
          · rw [if_pos hdiv, hdiv]
            have hmod : l % 8 ≠ y % 8 := by
              intro hm
              apply hlne
              omega
            exact or_one_shift_testBit_ne _ _ _ hmod
          · rw [if_neg hdiv]
    · -- bit already set: byte unchanged
      have hnb : s.framebuffer (y * 50 + x / 8) ||| (1 <<< (x % 8))
          = s.framebuffer (y * 50 + x / 8) := or_one_shift_eq_self _ _ hc
      have hsp : set_pixel s x y true = s := by
        unfold set_pixel
        rw [if_neg hcond]
        simp only [if_true]
        rw [hnb]
        simp only [ne_eq, not_true_eq_false, Bool.false_eq_true, if_false]
        rw [hfbid]
      refine ⟨?_, ?_, ?_, fun _ => hsp, ?_⟩
      · rw [hsp, hc]
      · intro j _ _
        rw [hsp]
      · intro i _
        rw [hsp]
      · intro hcc
        exact absurd rfl hcc

/-- A witness for C6: out-of-bounds write at x = 400 is a no-op, and
painting pixel (3, 5) black on a fresh (white) framebuffer marks line 5
dirty. -/
theorem set_pixel_spec_witness :
    set_pixel Ls027b7dh01.new 400 0 false = Ls027b7dh01.new
    ∧ is_dirty (set_pixel Ls027b7dh01.new 3 5 false) 5 = true := by
  constructor
  · exact (set_pixel_spec Ls027b7dh01.new 400 0 false).2.1 (Or.inl (by norm_num))
  · exact (((set_pixel_spec Ls027b7dh01.new 3 5 false).2.2 (by norm_num)
      (by norm_num) (by decide)).2.2.2.2 (by decide)).1

theorem read_exact_ok_len (script : Nat → ReadResult) (target : Nat) :
    ∀ (n : Nat) (acc : List Nat) (k : Nat), target - acc.length ≤ n →
      acc.length ≤ target →
      ∀ bs k2, read_exact script k acc target = Except.ok (bs, k2) →
        bs.length = target := by
  intro n
  induction n with
  | zero =>
    intro acc k hfuel hle bs k2 h
    rw [read_exact] at h
    rw [if_pos (by omega)] at h
    cases h
    omega
  | succ n ih =>
    intro acc k hfuel hle bs k2 h
    rw [read_exact] at h
    by_cases hc : target ≤ acc.length
    · rw [if_pos hc] at h
      cases h
      omega
    · rw [if_neg hc] at h
      rcases hs : script k with bs2 | _
      · rw [hs] at h
        simp only [] at h
        by_cases hz : bs2.length = 0
        · rw [if_pos hz] at h
          simp at h
        · rw [if_neg hz] at h
          refine ih (acc ++ bs2.take (target - acc.length)) (k + 1) ?_ ?_ bs k2 h
          · simp only [List.length_append, List.length_take]
            omega
          · simp only [List.length_append, List.length_take]
            omega
      · rw [hs] at h
        simp at h

theorem read_exact_err_cases (script : Nat → ReadResult) (target : Nat) :
    ∀ (n : Nat) (acc : List Nat) (k : Nat), target - acc.length ≤ n →
      ∀ e, read_exact script k acc target = Except.error e →
        (e = SenError.Io ∧ ∃ j, script j = .err)
        ∨ (e = SenError.Timeout ∧ ∃ j, script j = .ok []) := by
  intro n
  induction n with
  | zero =>
    intro acc k hfuel e h
    rw [read_exact] at h
    rw [if_pos (by omega)] at h
    simp at h
  | succ n ih =>
    intro acc k hfuel e h
    rw [read_exact] at h
    by_cases hc : target ≤ acc.length
    · rw [if_pos hc] at h
      simp at h
    · rw [if_neg hc] at h
      rcases hs : script k with bs2 | _
      · rw [hs] at h
        simp only [] at h
        by_cases hz : bs2.length = 0
        · rw [if_pos hz] at h
          cases h
          right
          refine ⟨rfl, k, ?_⟩
          rw [hs, List.length_eq_zero.mp hz]
        · rw [if_neg hz] at h
          refine ih (acc ++ bs2.take (target - acc.length)) (k + 1) ?_ e h
          simp only [List.length_append, List.length_take]
          omega
      · rw [hs] at h
        cases h
        exact Or.inl ⟨rfl, k, hs⟩

/-- Claim C9: `read_exact` keeps requesting bytes until the target count
is reached — on success the buffer is completely filled; the only errors
it returns are `Timeout`, which arises only when some transport read
returned zero bytes, and `Io`, which arises only when some transport read
failed. -/
theorem read_exact_spec (script : Nat → ReadResult) (target : Nat) :
    (∀ bs k2, read_exact script 0 [] target = Except.ok (bs, k2) →
      bs.length = target)
    ∧ (∀ e, read_exact script 0 [] target = Except.error e →
        (e = SenError.Io ∧ ∃ j, script j = .err)
        ∨ (e = SenError.Timeout ∧ ∃ j, script j = .ok [])) :=
  ⟨fun bs k2 h => read_exact_ok_len script target target [] 0 (by simp) (by simp) bs k2 h,
   fun e h => read_exact_err_cases script target target [] 0 (by simp) e h⟩

/-- A witness for C9: a transport that answers one byte per call fills a
2-byte buffer completely (in two reads). -/
theorem read_exact_spec_witness :
    read_exact (fun _ => .ok [7]) 0 [] 2 = Except.ok ([7, 7], 2)
    ∧ ([7, 7] : List Nat).length = 2 := by
  have h : read_exact (fun _ => .ok [7]) 0 [] 2 = Except.ok ([7, 7], 2) := by
    rw [read_exact]
    norm_num
    rw [read_exact]
    norm_num
    rw [read_exact]
    norm_num
  exact ⟨h, (read_exact_spec (fun _ => .ok [7]) 2).1 [7, 7] 2 h⟩

theorem crc16_round_lt (c : Nat) (h : c < 2 ^ 16) : crc16_round c < 2 ^ 16 := by
  unfold crc16_round
  have h1 : c >>> 1 < 2 ^ 16 := by
    rw [Nat.shiftRight_eq_div_pow]
    exact lt_of_le_of_lt (Nat.div_le_self _ _) h
  split_ifs
  · exact Nat.xor_lt_two_pow h1 (by norm_num)
  · exact h1

theorem crc16_round_leftInv (c : Nat) (h : c < 2 ^ 16) :
    crc16_round_inv (crc16_round c) = c := by
  unfold crc16_round crc16_round_inv
  have h16 : c.testBit 16 = false := Nat.testBit_lt_two_pow h
  have hsr : (c >>> 1).testBit 15 = c.testBit 16 := by
    rw [Nat.testBit_shiftRight]
  have hdiv : c >>> 1 = c / 2 := by
    rw [Nat.shiftRight_eq_div_pow, pow_one]
  by_cases hp : c &&& 1 ≠ 0
  · rw [if_pos hp]
    have hodd : c % 2 = 1 := by
      rw [Nat.and_one_is_mod] at hp
      omega
    have hb : ((c >>> 1) ^^^ 0xA001).testBit 15 = true := by
      rw [Nat.testBit_xor, hsr, h16]
      decide
    rw [hb]
    simp only [if_true]
    rw [Nat.xor_assoc, Nat.xor_self, Nat.xor_zero, hdiv]
    omega
  · rw [if_neg hp]
    have heven : c % 2 = 0 := by
      rw [Nat.and_one_is_mod] at hp
      omega
    have hb : (c >>> 1).testBit 15 = false := by
      rw [hsr]
      exact h16
    rw [hb]
    simp only [Bool.false_eq_true, if_false]
    rw [hdiv]
    omega

theorem crc16_round_inj (a b : Nat) (ha : a < 2 ^ 16) (hb : b < 2 ^ 16)
    (h : crc16_round a = crc16_round b) : a = b := by
  rw [← crc16_round_leftInv a ha, ← crc16_round_leftInv b hb, h]

theorem crc16_round_iter_lt (n c : Nat) (h : c < 2 ^ 16) :
    crc16_round^[n] c < 2 ^ 16 := by
  induction n generalizing c with
  | zero => simpa using h
  | succ n ih =>
    rw [Function.iterate_succ_apply]
    exact ih _ (crc16_round_lt c h)

theorem crc16_round_iter_inj (n a b : Nat) (ha : a < 2 ^ 16) (hb : b < 2 ^ 16)
    (h : crc16_round^[n] a = crc16_round^[n] b) : a = b := by
  induction n generalizing a b with
  | zero => simpa using h
  | succ n ih =>
    rw [Function.iterate_succ_apply, Function.iterate_succ_apply] at h
    exact crc16_round_inj a b ha hb
      (ih _ _ (crc16_round_lt a ha) (crc16_round_lt b hb) h)

theorem crc16_byte_lt (crc b : Nat) (hc : crc < 2 ^ 16) (hb : b < 2 ^ 16) :
    crc16_byte crc b < 2 ^ 16 :=
  crc16_round_iter_lt 8 _ (Nat.xor_lt_two_pow hc hb)

theorem crc16_byte_inj_left (a a2 b : Nat) (ha : a < 2 ^ 16) (ha2 : a2 < 2 ^ 16)
    (hb : b < 2 ^ 16) (h : crc16_byte a b = crc16_byte a2 b) : a = a2 := by
  have h1 := crc16_round_iter_inj 8 (a ^^^ b) (a2 ^^^ b)
    (Nat.xor_lt_two_pow ha hb) (Nat.xor_lt_two_pow ha2 hb) h
  have h2 := congrArg (fun t => t ^^^ b) h1
  simpa [Nat.xor_assoc] using h2

theorem crc16_byte_inj_right (a b b2 : Nat) (ha : a < 2 ^ 16) (hb : b < 2 ^ 16)
    (hb2 : b2 < 2 ^ 16) (h : crc16_byte a b = crc16_byte a b2) : b = b2 := by
  have h1 := crc16_round_iter_inj 8 (a ^^^ b) (a ^^^ b2)
    (Nat.xor_lt_two_pow ha hb) (Nat.xor_lt_two_pow ha hb2) h
  have h2 := congrArg (fun t => a ^^^ t) h1
  simpa [← Nat.xor_assoc] using h2

theorem foldl_crc16_lt (l : List Nat) (hl : ∀ b ∈ l, b < 2 ^ 16) :
    ∀ a, a < 2 ^ 16 → l.foldl crc16_byte a < 2 ^ 16 := by
  induction l with
  | nil => intro a ha; simpa using ha
  | cons hd tl ih =>
    intro a ha
    rw [List.foldl_cons]
    exact ih (fun b hb => hl b (List.mem_cons_of_mem hd hb)) _
      (crc16_byte_lt a hd ha (hl hd (List.mem_cons_self hd tl)))

theorem foldl_crc16_inj (l : List Nat) (hl : ∀ b ∈ l, b < 2 ^ 16) :
    ∀ a a2, a < 2 ^ 16 → a2 < 2 ^ 16 →
      l.foldl crc16_byte a = l.foldl crc16_byte a2 → a = a2 := by
  induction l with
  | nil => intro a a2 _ _ h; simpa using h
  | cons hd tl ih =>
    intro a a2 ha ha2 h
    rw [List.foldl_cons, List.foldl_cons] at h
    have hhd : hd < 2 ^ 16 := hl hd (List.mem_cons_self hd tl)
    have h1 := ih (fun b hb => hl b (List.mem_cons_of_mem hd hb)) _ _
      (crc16_byte_lt a hd ha hhd) (crc16_byte_lt a2 hd ha2 hhd) h
    exact crc16_byte_inj_left a a2 hd ha ha2 hhd h1

theorem crc16_change_ne (p suf : List Nat) (b b2 : Nat)
    (hp : ∀ x ∈ p, x < 2 ^ 16) (hsuf : ∀ x ∈ suf, x < 2 ^ 16)
    (hb : b < 2 ^ 16) (hb2 : b2 < 2 ^ 16) (hne : b ≠ b2) :
    crc16 (p ++ b :: suf) ≠ crc16 (p ++ b2 :: suf) := by
  intro he
  unfold crc16 at he
  rw [List.foldl_append, List.foldl_append] at he
  simp only [List.foldl_cons] at he
  have hs : p.foldl crc16_byte 0xFFFF < 2 ^ 16 :=
    foldl_crc16_lt p hp 0xFFFF (by norm_num)
  have h1 := foldl_crc16_inj suf hsuf _ _
    (crc16_byte_lt _ _ hs hb) (crc16_byte_lt _ _ hs hb2) he
  exact hne (crc16_byte_inj_right _ _ _ hs hb hb2 h1)

theorem hi_lo_or_eq_add (hi lo : Nat) (h : lo < 256) :
    (hi <<< 8) ||| lo = 256 * hi + lo := by
  rw [Nat.shiftLeft_eq, Nat.mul_comm]
  have h2 : lo < 2 ^ 8 := by omega
  rw [← Nat.mul_add_lt_is_or h2 hi]

theorem read_exact_one_shot (resp : List Nat) (target : Nat)
    (ht : resp.length = target) (h0 : 0 < target) :
    read_exact (scriptOf resp) 0 [] target = Except.ok (resp, 1) := by
  rw [read_exact]
  rw [if_neg (by simp; omega)]
  show (match scriptOf resp 0 with
    | .err => Except.error SenError.Io
    | .ok bs =>
      if bs.length = 0 then Except.error SenError.Timeout
      else read_exact (scriptOf resp) 1 ([] ++ bs.take (target - List.length [])) target)
    = Except.ok (resp, 1)
  simp only [scriptOf]
  rw [if_neg (by omega)]
  simp only [List.nil_append, List.length_nil, Nat.sub_zero]
  rw [← ht, List.take_length]
  rw [read_exact]
  rw [if_pos (by omega)]

theorem read_register_seven (addr reg : Nat) (r0 r1 r2 r3 r4 r5 r6 : Nat) :
    (read_register addr reg (uartOf [r0, r1, r2, r3, r4, r5, r6])).1 =
      if (r6 <<< 8 ||| r5) ≠ crc16 [r0, r1, r2, r3, r4] then
        Except.error SenError.CrcMismatch
      else if r1 &&& 0x80 ≠ 0 then Except.error (SenError.ModbusException r2)
      else if r0 ≠ addr then Except.error SenError.AddressMismatch
      else if r1 ≠ 0x03 then Except.error SenError.FunctionMismatch
      else if r2 ≠ 2 then Except.error SenError.InvalidLength
      else Except.ok (r3 <<< 8 ||| r4) := by
  unfold read_register uartOf
  simp only []
  rw [read_exact_one_shot [r0, r1, r2, r3, r4, r5, r6] 7 rfl (by norm_num)]
  rfl

/-- Claim C2: on a 7-byte response, `read_register` validates, in order:
CRC of the first 5 bytes against the little-endian trailing CRC (else
CrcMismatch), the exception bit 0x80 of the function byte (else
ModbusException with byte 2 as code), the device-address echo (else
AddressMismatch), the function-code echo (else FunctionMismatch), and the
byte count = 2 (else InvalidLength); on success it returns bytes 3 and 4
big-endian; and flipping any single byte of a response that validated
successfully yields CrcMismatch. -/
theorem read_register_validation (addr reg : Nat) (r0 r1 r2 r3 r4 r5 r6 : Nat)
    (h0 : r0 < 256) (h1 : r1 < 256) (h2 : r2 < 256) (h3 : r3 < 256)
    (h4 : r4 < 256) (h5 : r5 < 256) (h6 : r6 < 256) :
    ((read_register addr reg (uartOf [r0, r1, r2, r3, r4, r5, r6])).1 =
      if (r6 <<< 8 ||| r5) ≠ crc16 [r0, r1, r2, r3, r4] then
        Except.error SenError.CrcMismatch
      else if r1 &&& 0x80 ≠ 0 then Except.error (SenError.ModbusException r2)
      else if r0 ≠ addr then Except.error SenError.AddressMismatch
      else if r1 ≠ 0x03 then Except.error SenError.FunctionMismatch
      else if r2 ≠ 2 then Except.error SenError.InvalidLength
      else Except.ok (r3 <<< 8 ||| r4))
    ∧ (∀ v, (read_register addr reg (uartOf [r0, r1, r2, r3, r4, r5, r6])).1
          = Except.ok v →
        v = r3 <<< 8 ||| r4
        ∧ ∀ i b2, i < 7 → b2 < 256 →
            b2 ≠ [r0, r1, r2, r3, r4, r5, r6].getD i 0 →
            (read_register addr reg
              (uartOf ([r0, r1, r2, r3, r4, r5, r6].set i b2))).1
              = Except.error SenError.CrcMismatch) := by
  refine ⟨read_register_seven addr reg r0 r1 r2 r3 r4 r5 r6, ?_⟩
  intro v hwf
  rw [read_register_seven] at hwf
  by_cases hA : (r6 <<< 8 ||| r5) ≠ crc16 [r0, r1, r2, r3, r4]
  · rw [if_pos hA] at hwf
    simp at hwf
  · rw [if_neg hA] at hwf
    rw [not_ne_iff] at hA
    by_cases hB : r1 &&& 0x80 ≠ 0
    · rw [if_pos hB] at hwf
      simp at hwf
    · rw [if_neg hB] at hwf
      by_cases hC : r0 ≠ addr
      · rw [if_pos hC] at hwf
        simp at hwf
      · rw [if_neg hC] at hwf
        by_cases hD : r1 ≠ 0x03
        · rw [if_pos hD] at hwf
          simp at hwf
        · rw [if_neg hD] at hwf
          by_cases hE : r2 ≠ 2
          · rw [if_pos hE] at hwf
            simp at hwf
          · rw [if_neg hE] at hwf
            refine ⟨by injection hwf with hh; exact hh.symm, ?_⟩
            intro i b2 hi hb2 hne
            interval_cases i
            · rw [show [r0, r1, r2, r3, r4, r5, r6].set 0 b2
                  = [b2, r1, r2, r3, r4, r5, r6] from rfl, read_register_seven]
              have hcond : (r6 <<< 8 ||| r5) ≠ crc16 [b2, r1, r2, r3, r4] := by
                rw [hA]
                exact crc16_change_ne [] [r1, r2, r3, r4] r0 b2 (by simp)
                  (by intro x hx; fin_cases hx <;> omega) (by omega) (by omega)
                  (Ne.symm hne)
              rw [if_pos hcond]
            · rw [show [r0, r1, r2, r3, r4, r5, r6].set 1 b2
                  = [r0, b2, r2, r3, r4, r5, r6] from rfl, read_register_seven]
              have hcond : (r6 <<< 8 ||| r5) ≠ crc16 [r0, b2, r2, r3, r4] := by
                rw [hA]
                exact crc16_change_ne [r0] [r2, r3, r4] r1 b2
                  (by intro x hx; fin_cases hx <;> omega)
                  (by intro x hx; fin_cases hx <;> omega) (by omega) (by omega)
                  (Ne.symm hne)
              rw [if_pos hcond]
            · rw [show [r0, r1, r2, r3, r4, r5, r6].set 2 b2
                  = [r0, r1, b2, r3, r4, r5, r6] from rfl, read_register_seven]
              have hcond : (r6 <<< 8 ||| r5) ≠ crc16 [r0, r1, b2, r3, r4] := by
                rw [hA]
                exact crc16_change_ne [r0, r1] [r3, r4] r2 b2
                  (by intro x hx; fin_cases hx <;> omega)
                  (by intro x hx; fin_cases hx <;> omega) (by omega) (by omega)
                  (Ne.symm hne)
              rw [if_pos hcond]
            · rw [show [r0, r1, r2, r3, r4, r5, r6].set 3 b2
                  = [r0, r1, r2, b2, r4, r5, r6] from rfl, read_register_seven]
              have hcond : (r6 <<< 8 ||| r5) ≠ crc16 [r0, r1, r2, b2, r4] := by
                rw [hA]
                exact crc16_change_ne [r0, r1, r2] [r4] r3 b2
                  (by intro x hx; fin_cases hx <;> omega)
                  (by intro x hx; fin_cases hx <;> omega) (by omega) (by omega)
                  (Ne.symm hne)
              rw [if_pos hcond]
            · rw [show [r0, r1, r2, r3, r4, r5, r6].set 4 b2
                  = [r0, r1, r2, r3, b2, r5, r6] from rfl, read_register_seven]
              have hcond : (r6 <<< 8 ||| r5) ≠ crc16 [r0, r1, r2, r3, b2] := by
                rw [hA]
                exact crc16_change_ne [r0, r1, r2, r3] [] r4 b2
                  (by intro x hx; fin_cases hx <;> omega) (by simp)
                  (by omega) (by omega) (Ne.symm hne)
              rw [if_pos hcond]
            · rw [show [r0, r1, r2, r3, r4, r5, r6].set 5 b2
                  = [r0, r1, r2, r3, r4, b2, r6] from rfl, read_register_seven]
              have hcond : (r6 <<< 8 ||| b2) ≠ crc16 [r0, r1, r2, r3, r4] := by
                rw [← hA, hi_lo_or_eq_add r6 b2 hb2, hi_lo_or_eq_add r6 r5 h5]
                have : b2 ≠ r5 := hne
                omega
              rw [if_pos hcond]
            · rw [show [r0, r1, r2, r3, r4, r5, r6].set 6 b2
                  = [r0, r1, r2, r3, r4, r5, b2] from rfl, read_register_seven]
              have hcond : (b2 <<< 8 ||| r5) ≠ crc16 [r0, r1, r2, r3, r4] := by
                rw [← hA, hi_lo_or_eq_add b2 r5 h5, hi_lo_or_eq_add r6 r5 h5]
                have : b2 ≠ r6 := hne
                omega
              rw [if_pos hcond]

set_option maxRecDepth 8000 in
/-- A witness for C2: a valid read response for register 1 at address 1
decodes to 450, and corrupting its data byte 4 yields CrcMismatch. -/
theorem read_register_validation_witness :
    (read_register 1 1 (uartOf [1, 3, 2, 1, 0xC2, 0x38, 0x45])).1
      = Except.ok 450
    ∧ (read_register 1 1 (uartOf ([1, 3, 2, 1, 0xC2, 0x38, 0x45].set 4 0))).1
      = Except.error SenError.CrcMismatch := by
  have h := read_register_validation 1 1 1 3 2 1 0xC2 0x38 0x45
    (by norm_num) (by norm_num) (by norm_num) (by norm_num) (by norm_num)
    (by norm_num) (by norm_num)
  have hok : (read_register 1 1 (uartOf [1, 3, 2, 1, 0xC2, 0x38, 0x45])).1
      = Except.ok 450 := by
    rw [h.1]
    rfl
  exact ⟨hok, (h.2 450 hok).2 4 0 (by norm_num) (by norm_num) (by decide)⟩

theorem write_register_eight (addr reg value : Nat)
    (r0 r1 r2 r3 r4 r5 r6 r7 : Nat) :
    (write_register addr reg value (uartOf [r0, r1, r2, r3, r4, r5, r6, r7])).1 =
      if (r7 <<< 8 ||| r6) ≠ crc16 [r0, r1, r2, r3, r4, r5] then
        Except.error SenError.CrcMismatch
      else if r1 &&& 0x80 ≠ 0 then Except.error (SenError.ModbusException r2)
      else if r0 ≠ addr then Except.error SenError.AddressMismatch
      else if r1 ≠ 0x06 then Except.error SenError.FunctionMismatch
      else Except.ok () := by
  unfold write_register uartOf
  simp only []
  rw [read_exact_one_shot [r0, r1, r2, r3, r4, r5, r6, r7] 8 rfl (by norm_num)]
  rfl

/-- Claim C10: `write_register` never compares the echoed register/value
bytes (positions 2..5) of the 8-byte response against the request: any
response with a valid CRC, clear exception bit, and matching address and
function bytes yields success, even when bytes 2..5 differ from the
request's register and value encoding. -/
theorem write_register_no_echo_check (address reg value : Nat)
    (r0 r1 r2 r3 r4 r5 r6 r7 : Nat)
    (hcrc : (r7 <<< 8 ||| r6) = crc16 [r0, r1, r2, r3, r4, r5])
    (hexc : r1 &&& 0x80 = 0)
    (haddr : r0 = address)
    (hfn : r1 = 0x06)
    (hdiff : [r2, r3, r4, r5]
      ≠ [(reg >>> 8) % 256, reg % 256, (value >>> 8) % 256, value % 256]) :
    (write_register address reg value (uartOf [r0, r1, r2, r3, r4, r5, r6, r7])).1
      = Except.ok () := by
  rw [write_register_eight]
  rw [if_neg (not_ne_iff.mpr hcrc)]
  rw [if_neg (not_ne_iff.mpr hexc)]
  rw [if_neg (not_ne_iff.mpr haddr)]
  rw [if_neg (not_ne_iff.mpr hfn)]

set_option maxRecDepth 8000 in
/-- A witness for C10: writing value 1000 to register 5 is accepted on a
response whose echoed register/value bytes are all zero. -/
theorem write_register_no_echo_check_witness :
    (write_register 1 5 1000 (uartOf [1, 6, 0, 0, 0, 0, 0x89, 0xCA])).1
      = Except.ok ()
    ∧ ([0, 0, 0, 0] : List Nat)
      ≠ [(5 >>> 8) % 256, 5 % 256, (1000 >>> 8) % 256, 1000 % 256] :=
  ⟨write_register_no_echo_check 1 5 1000 1 6 0 0 0 0 0x89 0xCA
    (by decide) (by decide) rfl rfl (by decide), by decide⟩

/-- Claim C7: `set_device_address` rejects address 0 and addresses above
0xFD with `InvalidAddress` and an empty transport trace; for an accepted
address the stored device address becomes `addr` exactly when the
register write succeeds, and stays unchanged (with the error propagated)
when it fails. -/
theorem set_device_address_spec (s : Sen0676) (addr : Nat) (u : Uart) :
    (addr = 0 ∨ 0xFD < addr →
      set_device_address s addr u = (Except.error SenError.InvalidAddress, s, []))
    ∧ (addr ≠ 0 → addr ≤ 0xFD →
        ((write_register s.address 0x03F4 addr u).1 = Except.ok () →
          (set_device_address s addr u).1 = Except.ok ()
          ∧ (set_device_address s addr u).2.1.address = addr)
        ∧ (∀ e, (write_register s.address 0x03F4 addr u).1 = Except.error e →
            (set_device_address s addr u).1 = Except.error e
            ∧ (set_device_address s addr u).2.1.address = s.address)) := by
  constructor
  · intro h
    unfold set_device_address
    rw [if_pos h]
  · intro h1 h2
    have hcond : ¬(addr = 0 ∨ 0xFD < addr) := by omega
    constructor
    · intro hw
      simp [set_device_address, hcond, hw]
    · intro e hw
      simp [set_device_address, hcond, hw]

set_option maxRecDepth 8000 in
/-- A witness for C7: address 0xFE is rejected with no transport write,
and address 5 is stored after a successful register write (the transport
echoes the request frame). -/
theorem set_device_address_spec_witness :
    set_device_address ⟨1⟩ 0xFE (uartOf [])
      = (Except.error SenError.InvalidAddress, ⟨1⟩, [])
    ∧ (set_device_address ⟨1⟩ 5 (uartOf [1, 6, 3, 244, 0, 5, 8, 127])).2.1.address
      = 5 := by
  have hw : (write_register 1 0x03F4 5 (uartOf [1, 6, 3, 244, 0, 5, 8, 127])).1
      = Except.ok () := by
    rw [write_register_eight]
    rfl
  refine ⟨(set_device_address_spec ⟨1⟩ 0xFE (uartOf [])).1 (Or.inr (by norm_num)), ?_⟩
  exact (((set_device_address_spec ⟨1⟩ 5 (uartOf [1, 6, 3, 244, 0, 5, 8, 127])).2
    (by norm_num) (by norm_num)).1 hw).2

theorem baud_code_some_iff (b v : Nat) (h : baud_code b = some v) :
    b ∈ [4800, 9600, 14400, 19200, 38400, 56000, 57600, 115200, 129000]
    ∧ v = b / 100 := by
  unfold baud_code at h
  split at h <;> simp_all

/-- Claim C8: `set_baud_rate` rejects any rate outside the supported set
with `InvalidBaudRate` and an empty transport trace; a supported rate is
forwarded as exactly one write request to the baud-rate register 0x03F6
carrying the encoded value rate/100. -/
theorem set_baud_rate_spec (s : Sen0676) (baud : Nat) (u : Uart) :
    (baud ∉ [4800, 9600, 14400, 19200, 38400, 56000, 57600, 115200, 129000] →
      set_baud_rate s baud u = (Except.error SenError.InvalidBaudRate, []))
    ∧ (baud ∈ [4800, 9600, 14400, 19200, 38400, 56000, 57600, 115200, 129000] →
        set_baud_rate s baud u = write_register s.address 0x03F6 (baud / 100) u
        ∧ (set_baud_rate s baud u).2
            = [write_request s.address 0x03F6 (baud / 100)]) := by
  constructor
  · intro hmem
    rcases hbc : baud_code baud with _ | v
    · unfold set_baud_rate
      rw [hbc]
    · exact absurd (baud_code_some_iff baud v hbc).1 hmem
  · intro hmem
    fin_cases hmem <;> exact ⟨rfl, rfl⟩

/-- A witness for C8: 100000 baud is rejected without transport traffic,
and 115200 baud issues exactly one write of the encoded value 1152 to
register 0x03F6. -/
theorem set_baud_rate_spec_witness :
    set_baud_rate ⟨1⟩ 100000 (uartOf [])
      = (Except.error SenError.InvalidBaudRate, [])
    ∧ (set_baud_rate ⟨1⟩ 115200 (uartOf [])).2
      = [write_request 1 0x03F6 1152] := by
  refine ⟨(set_baud_rate_spec ⟨1⟩ 100000 (uartOf [])).1 (by decide), ?_⟩
  exact ((set_baud_rate_spec ⟨1⟩ 115200 (uartOf [])).2 (by decide)).2

end WaterController
